import Mathlib

/-!
Shallow embedding of the streaming text-generation client of the `glyph`
repository (package `mind`, files `client.go` and `claude.go`), together
with theorems settling the frozen claims about it.

Conventions of the embedding:
* Go strings become Lean `String`s (the inputs of interest are ASCII, so
  Go's byte-oriented operations coincide with Lean's character-oriented
  ones).
* `json.Unmarshal` is modelled by a JSON parser (`Json.parse`) followed by
  per-adapter field extraction mirroring Go's decoding of the target
  structs (unknown fields ignored, absent or `null` fields zero-valued,
  type mismatches are errors).
* The goroutine bodies of the three `Stream` implementations become
  recursive functions over the list of scanned lines.  The cooperative
  cancellation signal (`ctx.Done()`) is modelled by `cancelAt : Option
  Nat`: the producer performs its cancellation checks in program order,
  and check number `k` observes the signal as cancelled exactly when
  `cancelAt = some c` with `c ≤ k` (`none` = the signal is never
  cancelled).  This matches the two check sites of the Go code: the
  `select` at the top of each loop iteration and the `select` guarding
  each channel send.
-/

namespace Glyph

/-- Models Go `unicode.IsSpace` restricted to the Latin-1 range, which is
what `strings.TrimSpace` strips (space, tab, newline, vertical tab, form
feed, carriage return, NEL, NBSP). -/
def goIsSpace (c : Char) : Bool :=
  c = ' ' || c = '\t' || c = '\n' || c = '\x0b' || c = '\x0c' || c = '\r' ||
  c.toNat = 0x85 || c.toNat = 0xa0

/-- Models Go `strings.TrimSpace`. -/
def goTrimSpace (s : String) : String :=
  String.mk (((s.toList.dropWhile goIsSpace).reverse.dropWhile goIsSpace).reverse)

/-- Models Go `strings.HasPrefix`. -/
def goHasPre (s p : String) : Bool :=
  p.toList.isPrefixOf s.toList

/-- Models Go `strings.TrimPrefix`: drops `p` from the front of `s` when
present, otherwise returns `s` unchanged. -/
def trimPfx (s p : String) : String :=
  if goHasPre s p then String.mk (s.toList.drop p.toList.length) else s

/-- Models Go `strings.TrimRight(s, "/")`: strips trailing slashes. -/
def goTrimRightSlash (s : String) : String :=
  String.mk ((s.toList.reverse.dropWhile (fun c => c = '/')).reverse)

/-- Models Go `strings.ToLower` (ASCII-faithful). -/
def goToLower (s : String) : String :=
  String.mk (s.toList.map Char.toLower)

/-- Drops a single trailing carriage return, as `bufio.ScanLines` does to
each token. -/
def dropCR (l : List Char) : List Char :=
  match l.reverse with
  | '\r' :: rest => rest.reverse
  | _ => l

/-- Models `bufio.Scanner` with the default `bufio.ScanLines` split: lines
separated by `'\n'`, each stripped of one trailing `'\r'`; a final chunk
without a newline is still a token, but a trailing newline produces no
empty final token.  `acc` holds the characters of the current line in
reverse. -/
def scanLinesAux : List Char → List Char → List (List Char)
  | [], acc => if acc.isEmpty then [] else [dropCR acc.reverse]
  | c :: cs, acc =>
    if c = '\n' then dropCR acc.reverse :: scanLinesAux cs []
    else scanLinesAux cs (c :: acc)

/-- The list of lines `bufio.Scanner` yields for a response body. -/
def scanLines (s : String) : List String :=
  (scanLinesAux s.toList []).map String.mk

/-! ### JSON values and parsing (model of `encoding/json` syntax) -/

/-- A JSON value.  Numbers keep their raw text: none of the decoded Go
structs in this package has a numeric field, so only the syntactic
validity of numbers matters. -/
inductive Json where
  | null : Json
  | bool (b : Bool) : Json
  | num (raw : String) : Json
  | str (s : String) : Json
  | arr (xs : List Json) : Json
  | obj (fields : List (String × Json)) : Json

/-- JSON insignificant whitespace. -/
def jsonWs (c : Char) : Bool :=
  c = ' ' || c = '\t' || c = '\n' || c = '\r'

def skipWs (cs : List Char) : List Char :=
  cs.dropWhile jsonWs

def hexVal (c : Char) : Option Nat :=
  if '0' ≤ c ∧ c ≤ '9' then some (c.toNat - '0'.toNat)
  else if 'a' ≤ c ∧ c ≤ 'f' then some (c.toNat - 'a'.toNat + 10)
  else if 'A' ≤ c ∧ c ≤ 'F' then some (c.toNat - 'A'.toNat + 10)
  else none

/-- Parses the body of a JSON string after the opening quote, returning
the decoded characters and the input remaining after the closing quote.
Escapes follow RFC 8259 as `encoding/json` accepts them; raw control
characters are rejected. -/
def parseStrBody : Nat → List Char → Option (List Char × List Char)
  | 0, _ => none
  | _ + 1, [] => none
  | fuel + 1, c :: rest =>
    if c = '"' then some ([], rest)
    else if c = '\\' then
      match rest with
      | [] => none
      | e :: rest2 =>
        if e = '"' then (parseStrBody fuel rest2).map (fun p => ('"' :: p.1, p.2))
        else if e = '\\' then (parseStrBody fuel rest2).map (fun p => ('\\' :: p.1, p.2))
        else if e = '/' then (parseStrBody fuel rest2).map (fun p => ('/' :: p.1, p.2))
        else if e = 'b' then (parseStrBody fuel rest2).map (fun p => ('\x08' :: p.1, p.2))
        else if e = 'f' then (parseStrBody fuel rest2).map (fun p => ('\x0c' :: p.1, p.2))
        else if e = 'n' then (parseStrBody fuel rest2).map (fun p => ('\n' :: p.1, p.2))
        else if e = 'r' then (parseStrBody fuel rest2).map (fun p => ('\r' :: p.1, p.2))
        else if e = 't' then (parseStrBody fuel rest2).map (fun p => ('\t' :: p.1, p.2))
        else if e = 'u' then
          match rest2 with
          | h1 :: h2 :: h3 :: h4 :: rest3 =>
            match hexVal h1, hexVal h2, hexVal h3, hexVal h4 with
            | some a, some b, some c3, some d =>
              (parseStrBody fuel rest3).map
                (fun p => (Char.ofNat (((a * 16 + b) * 16 + c3) * 16 + d) :: p.1, p.2))
            | _, _, _, _ => none
          | _ => none
        else none
    else if c.toNat < 32 then none
    else (parseStrBody fuel rest).map (fun p => (c :: p.1, p.2))

/-- Parses a JSON number (RFC 8259 grammar) starting at the given input,
returning its raw text and the remaining input. -/
def parseNum (cs : List Char) : Option (String × List Char) :=
  let (sign, cs1) := match cs with
    | '-' :: r => (['-'], r)
    | _ => (([] : List Char), cs)
  match cs1 with
  | [] => none
  | c :: r =>
    if c.isDigit then
      let intPart := if c = '0' then [c] else c :: r.takeWhile Char.isDigit
      let intRest := if c = '0' then r else r.dropWhile Char.isDigit
      match intRest with
      | '.' :: fr =>
        let ds := fr.takeWhile Char.isDigit
        if ds.isEmpty then none
        else parseExpPart (sign ++ intPart ++ '.' :: ds) (fr.dropWhile Char.isDigit)
      | other => parseExpPart (sign ++ intPart) other
    else none
where
  /-- Handles the optional exponent part of a JSON number. -/
  parseExpPart (pre : List Char) (cs2 : List Char) : Option (String × List Char) :=
    match cs2 with
    | 'e' :: er => parseExpTail pre 'e' er
    | 'E' :: er => parseExpTail pre 'E' er
    | other => some (String.mk pre, other)
  /-- Handles the sign and digits after an exponent marker. -/
  parseExpTail (pre : List Char) (e : Char) (er : List Char) :
      Option (String × List Char) :=
    let (esign, er2) := match er with
      | '+' :: r2 => (['+'], r2)
      | '-' :: r2 => (['-'], r2)
      | _ => (([] : List Char), er)
    let ds := er2.takeWhile Char.isDigit
    if ds.isEmpty then none
    else some (String.mk (pre ++ e :: esign ++ ds), er2.dropWhile Char.isDigit)

mutual

/-- Parses one JSON value (leading whitespace allowed), returning it and
the remaining input. -/
def parseVal : Nat → List Char → Option (Json × List Char)
  | 0, _ => none
  | fuel + 1, cs =>
    match skipWs cs with
    | [] => none
    | c :: rest =>
      if c = '"' then
        (parseStrBody (rest.length + 1) rest).map
          (fun p => (Json.str (String.mk p.1), p.2))
      else if c = '\x7b' then parseObjItems fuel rest
      else if c = '[' then parseArrItems fuel rest
      else if c = 't' then
        match rest with
        | 'r' :: 'u' :: 'e' :: r => some (Json.bool true, r)
        | _ => none
      else if c = 'f' then
        match rest with
        | 'a' :: 'l' :: 's' :: 'e' :: r => some (Json.bool false, r)
        | _ => none
      else if c = 'n' then
        match rest with
        | 'u' :: 'l' :: 'l' :: r => some (Json.null, r)
        | _ => none
      else
        (parseNum (c :: rest)).map (fun p => (Json.num p.1, p.2))
termination_by structural fuel => fuel

/-- Parses the items of a JSON array, the opening bracket already
consumed. -/
def parseArrItems : Nat → List Char → Option (Json × List Char)
  | 0, _ => none
  | fuel + 1, cs =>
    match skipWs cs with
    | ']' :: r => some (Json.arr [], r)
    | cs2 =>
      match parseVal fuel cs2 with
      | none => none
      | some (v, r) => parseArrRest fuel [v] r
termination_by structural fuel => fuel

/-- Parses `, value`* `]` after at least one array item; `acc` holds the
items seen so far in reverse. -/
def parseArrRest : Nat → List Json → List Char → Option (Json × List Char)
  | 0, _, _ => none
  | fuel + 1, acc, cs =>
    match skipWs cs with
    | ']' :: r => some (Json.arr acc.reverse, r)
    | ',' :: r =>
      match parseVal fuel r with
      | none => none
      | some (v, r2) => parseArrRest fuel (v :: acc) r2
    | _ => none
termination_by structural fuel _ => fuel

/-- Parses the members of a JSON object, the opening brace already
consumed. -/
def parseObjItems : Nat → List Char → Option (Json × List Char)
  | 0, _ => none
  | fuel + 1, cs =>
    match skipWs cs with
    | c :: r =>
      if c = '\x7d' then some (Json.obj [], r)
      else
        match parseMember fuel (c :: r) with
        | none => none
        | some (kv, r2) => parseObjRest fuel [kv] r2
    | [] => none
termination_by structural fuel => fuel

/-- Parses `, member`* and the closing brace after at least one object
member; `acc` holds the members seen so far in reverse. -/
def parseObjRest : Nat → List (String × Json) → List Char → Option (Json × List Char)
  | 0, _, _ => none
  | fuel + 1, acc, cs =>
    match skipWs cs with
    | c :: r =>
      if c = '\x7d' then some (Json.obj acc.reverse, r)
      else if c = ',' then
        match parseMember fuel r with
        | none => none
        | some (kv, r2) => parseObjRest fuel (kv :: acc) r2
      else none
    | [] => none
termination_by structural fuel _ => fuel

/-- Parses one `"key" : value` object member. -/
def parseMember : Nat → List Char → Option ((String × Json) × List Char)
  | 0, _ => none
  | fuel + 1, cs =>
    match skipWs cs with
    | '"' :: r =>
      match parseStrBody (r.length + 1) r with
      | none => none
      | some (key, r2) =>
        match skipWs r2 with
        | ':' :: r3 =>
          match parseVal fuel r3 with
          | none => none
          | some (v, r4) => some ((String.mk key, v), r4)
        | _ => none
    | _ => none
termination_by structural fuel => fuel

end

/-- Parses a complete JSON document: one value followed only by
whitespace, as `json.Unmarshal` requires.  `none` models an unmarshal
syntax error. -/
def Json.parse (s : String) : Option Json :=
  match parseVal (2 * s.toList.length + 2) s.toList with
  | some (v, rest) => if (skipWs rest).isEmpty then some v else none
  | none => none

/-! ### `json.Unmarshal` into the package's target structs -/

/-- First match on an object field name, as `encoding/json` resolves the
exact-match case (the package's payloads never repeat a key and always
match the tag exactly). -/
def lookupField (fields : List (String × Json)) (k : String) : Option Json :=
  match fields with
  | [] => none
  | (k2, v) :: rest => if k2 = k then some v else lookupField rest k

/-- A Go `string` field: absent or `null` leaves the zero value `""`, a
JSON string is taken, any other type is an unmarshal error (`none`). -/
def strField (fields : List (String × Json)) (k : String) : Option String :=
  match lookupField fields k with
  | none => some ""
  | some Json.null => some ""
  | some (Json.str s) => some s
  | some _ => none

/-- A Go `bool` field: absent or `null` leaves the zero value `false`. -/
def boolField (fields : List (String × Json)) (k : String) : Option Bool :=
  match lookupField fields k with
  | none => some false
  | some Json.null => some false
  | some (Json.bool b) => some b
  | some _ => none

/-- A Go `*string` field: absent or `null` leaves `nil`. -/
def optStrField (fields : List (String × Json)) (k : String) :
    Option (Option String) :=
  match lookupField fields k with
  | none => some none
  | some Json.null => some none
  | some (Json.str s) => some (some s)
  | some _ => none

/-- One element of `groqDelta.Choices`: the first choice's
`Delta.Content` and `FinishReason` are all the adapter reads. -/
structure GroqChoice where
  deltaContent : String
  finishReason : Option String
deriving DecidableEq

/-- Decodes one array element into the anonymous choice struct of
`groqDelta`. -/
def decodeGroqChoice : Json → Option GroqChoice
  | Json.null => some ⟨"", none⟩
  | Json.obj fields =>
    match lookupField fields "delta" with
    | none => (optStrField fields "finish_reason").map (fun fr => ⟨"", fr⟩)
    | some Json.null => (optStrField fields "finish_reason").map (fun fr => ⟨"", fr⟩)
    | some (Json.obj dfields) =>
      match strField dfields "content" with
      | none => none
      | some content =>
        (optStrField fields "finish_reason").map (fun fr => ⟨content, fr⟩)
    | some _ => none
  | _ => none

def decodeGroqChoices : List Json → Option (List GroqChoice)
  | [] => some []
  | x :: xs =>
    match decodeGroqChoice x, decodeGroqChoices xs with
    | some c, some cs => some (c :: cs)
    | _, _ => none

/-- Models `json.Unmarshal(data, &msg)` for `msg : groqDelta`:
`none` is an unmarshal error (the caller skips the line). -/
def decodeGroq (payload : String) : Option (List GroqChoice) :=
  match Json.parse payload with
  | none => none
  | some Json.null => some []
  | some (Json.obj fields) =>
    match lookupField fields "choices" with
    | none => some []
    | some Json.null => some []
    | some (Json.arr xs) => decodeGroqChoices xs
    | some _ => none
  | some _ => none

/-- The fields of `ollamaDelta` the adapter reads. -/
structure OllamaMsg where
  content : String
  done : Bool
deriving DecidableEq

/-- Models `json.Unmarshal(scanner.Bytes(), &msg)` for `msg : ollamaDelta`. -/
def decodeOllama (line : String) : Option OllamaMsg :=
  match Json.parse line with
  | none => none
  | some Json.null => some ⟨"", false⟩
  | some (Json.obj fields) =>
    match (match lookupField fields "message" with
           | none => some ""
           | some Json.null => some ""
           | some (Json.obj mfields) => strField mfields "content"
           | some _ => none) with
    | none => none
    | some content =>
      match boolField fields "done" with
      | none => none
      | some d => some ⟨content, d⟩
  | some _ => none

/-- The fields of `claudeContentBlockDelta` the adapter reads. -/
structure ClaudeTd where
  dtype : String
  dtext : String
deriving DecidableEq

/-- Models `json.Unmarshal([]byte(payload), &delta)` for
`delta : claudeContentBlockDelta`. -/
def decodeClaudeDelta (payload : String) : Option ClaudeTd :=
  match Json.parse payload with
  | none => none
  | some Json.null => some ⟨"", ""⟩
  | some (Json.obj fields) =>
    match lookupField fields "delta" with
    | none => some ⟨"", ""⟩
    | some Json.null => some ⟨"", ""⟩
    | some (Json.obj dfields) =>
      match strField dfields "type", strField dfields "text" with
      | some ty, some tx => some ⟨ty, tx⟩
      | _, _ => none
    | some _ => none
  | some _ => none

/-! ### The producer goroutines of the three `Stream` implementations -/

/-- What one producer run leaves behind: the fragments sent on the
channel in order, the scanned lines it never read (it returned first),
and whether the response body was closed (the `defer body.Close()`). -/
structure StreamResult where
  emitted : List String
  remaining : List String
  bodyClosed : Bool
deriving DecidableEq

/-- Prepends a fragment sent on the channel before the rest of the run. -/
def pushFrag (d : String) (r : StreamResult) : StreamResult :=
  { r with emitted := d :: r.emitted }

/-- Whether cancellation check number `k` (in program order) observes the
context as cancelled.  `none` models a context that is never cancelled;
`some c` a context whose cancellation is first observed at check `c`. -/
def isCancelled : Option Nat → Nat → Bool
  | none, _ => false
  | some c, k => Nat.ble c k

/-- The loop body of `sseStream` (`client.go`): each line is checked for
cancellation, non-`data:` lines are skipped, the `[DONE]` sentinel and an
`extractDelta` terminal end the run, decode errors and empty deltas skip
the line, and a non-empty delta is sent (guarded by a second
cancellation check).  `k` counts cancellation checks performed so far. -/
def sseLoop (cancelAt : Option Nat) (extract : String → Option (String × Bool)) :
    List String → Nat → StreamResult
  | [], _ => ⟨[], [], true⟩
  | line :: rest, k =>
    if isCancelled cancelAt k then ⟨[], line :: rest, true⟩
    else if goHasPre line "data:" then
      if goTrimSpace (trimPfx line "data:") = "[DONE]" then ⟨[], rest, true⟩
      else
        match extract (goTrimSpace (trimPfx line "data:")) with
        | none => sseLoop cancelAt extract rest (k + 1)
        | some (delta, done) =>
          if done then ⟨[], rest, true⟩
          else if delta = "" then sseLoop cancelAt extract rest (k + 1)
          else if isCancelled cancelAt (k + 1) then ⟨[], rest, true⟩
          else pushFrag delta (sseLoop cancelAt extract rest (k + 2))
    else sseLoop cancelAt extract rest (k + 1)

/-- The `extractDelta` closure of `groqClient.Stream`: an unmarshal error
is `none`; no choices yields an empty, non-terminal delta; a first choice
whose `finish_reason` is `"stop"` is terminal; otherwise the first
choice's `delta.content` is the delta. -/
def extractGroq (payload : String) : Option (String × Bool) :=
  match decodeGroq payload with
  | none => none
  | some [] => some ("", false)
  | some (choice :: _) =>
    if choice.finishReason = some "stop" then some ("", true)
    else some (choice.deltaContent, false)

/-- The goroutine of `claudeClient.Stream` (`claude.go`): `event:` lines
update the current event type; `data:` lines are decoded only under
`content_block_delta` (emitting non-empty `text_delta` texts) and
terminate the stream under `message_stop`; everything else is skipped. -/
def claudeLoop (cancelAt : Option Nat) :
    List String → String → Nat → StreamResult
  | [], _, _ => ⟨[], [], true⟩
  | line :: rest, currentEvent, k =>
    if isCancelled cancelAt k then ⟨[], line :: rest, true⟩
    else if goHasPre line "event:" then
      claudeLoop cancelAt rest (goTrimSpace (trimPfx line "event:")) (k + 1)
    else if goHasPre line "data:" then
      if currentEvent = "content_block_delta" then
        match decodeClaudeDelta (goTrimSpace (trimPfx line "data:")) with
        | none => claudeLoop cancelAt rest currentEvent (k + 1)
        | some d =>
          if d.dtype = "text_delta" ∧ d.dtext ≠ "" then
            if isCancelled cancelAt (k + 1) then ⟨[], rest, true⟩
            else pushFrag d.dtext (claudeLoop cancelAt rest currentEvent (k + 2))
          else claudeLoop cancelAt rest currentEvent (k + 1)
      else if currentEvent = "message_stop" then ⟨[], rest, true⟩
      else claudeLoop cancelAt rest currentEvent (k + 1)
    else claudeLoop cancelAt rest currentEvent (k + 1)

/-- The goroutine of `ollamaClient.Stream` (`client.go`): each line is
unmarshalled as newline-delimited JSON; unmarshal errors skip the line;
a non-empty `message.content` is sent (guarded by a second cancellation
check); then `done = true` ends the run. -/
def ollamaLoop (cancelAt : Option Nat) : List String → Nat → StreamResult
  | [], _ => ⟨[], [], true⟩
  | line :: rest, k =>
    if isCancelled cancelAt k then ⟨[], line :: rest, true⟩
    else
      match decodeOllama line with
      | none => ollamaLoop cancelAt rest (k + 1)
      | some msg =>
        if msg.content ≠ "" then
          if isCancelled cancelAt (k + 1) then ⟨[], rest, true⟩
          else if msg.done then pushFrag msg.content ⟨[], rest, true⟩
          else pushFrag msg.content (ollamaLoop cancelAt rest (k + 2))
        else if msg.done then ⟨[], rest, true⟩
        else ollamaLoop cancelAt rest (k + 1)

/-! ### Transport helper, adapters and factory -/

/-- The initial HTTP response to the POST, the external input of
`doPost` after `http.DefaultClient.Do` succeeds. -/
structure HttpResponse where
  status : Nat
  body : String

/-- The status handling of `doPost` (`client.go`): a status of 400 or
more reads the body, closes it, and fails with the formatted error;
otherwise the open body is handed to the adapter. -/
def doPostModel (resp : HttpResponse) : Except String String :=
  if resp.status ≥ 400 then
    Except.error ("mind: server returned " ++ toString resp.status ++ ": " ++ resp.body)
  else Except.ok resp.body

/-- What a `Stream` call returns: a startup error and no fragment
source, or the observable result of the producer goroutine. -/
inductive StreamOutcome where
  | startupError (msg : String) : StreamOutcome
  | fragments (r : StreamResult) : StreamOutcome
deriving DecidableEq

/-- `groqClient.Stream` after the POST: propagate a startup error, else
run `sseStream` with the groq `extractDelta` over the scanned body. -/
def groqStream (cancelAt : Option Nat) (resp : HttpResponse) : StreamOutcome :=
  match doPostModel resp with
  | Except.error m => StreamOutcome.startupError m
  | Except.ok body => StreamOutcome.fragments (sseLoop cancelAt extractGroq (scanLines body) 0)

/-- `claudeClient.Stream` after the POST; the current event type starts
out empty. -/
def claudeStream (cancelAt : Option Nat) (resp : HttpResponse) : StreamOutcome :=
  match doPostModel resp with
  | Except.error m => StreamOutcome.startupError m
  | Except.ok body => StreamOutcome.fragments (claudeLoop cancelAt (scanLines body) "" 0)

/-- `ollamaClient.Stream` after the POST. -/
def ollamaStream (cancelAt : Option Nat) (resp : HttpResponse) : StreamOutcome :=
  match doPostModel resp with
  | Except.error m => StreamOutcome.startupError m
  | Except.ok body => StreamOutcome.fragments (ollamaLoop cancelAt (scanLines body) 0)

/-- The request URL computed by `ollamaClient.Stream` from the configured
host. -/
def ollamaURL (host : String) : String :=
  goTrimRightSlash (if host = "" then "http://localhost:11434" else host) ++ "/api/chat"

/-- The configuration fields `NewClientFromConfig` reads. -/
structure Config where
  aiProvider : String
  aiModel : String
  apiKey : String
  ollamaHost : String

/-- The concrete client values the factory can build. -/
inductive ClientModel where
  | ollama (host model : String) : ClientModel
  | groq (apiKey model : String) : ClientModel
  | claude (apiKey model : String) : ClientModel
deriving DecidableEq

/-- `NewClientFromConfig` (`client.go`): switch on the lower-cased
provider name; empty defaults to groq; cloud providers require an API
key; the claude model defaults when blank; anything else is a
configuration error naming the original value and the valid options. -/
def NewClientFromConfig (cfg : Config) : Except String ClientModel :=
  match goToLower cfg.aiProvider with
  | "ollama" => Except.ok (ClientModel.ollama cfg.ollamaHost cfg.aiModel)
  | "groq" | "" =>
    if cfg.apiKey = "" then Except.error "api_key is required for groq provider"
    else Except.ok (ClientModel.groq cfg.apiKey cfg.aiModel)
  | "claude" =>
    if cfg.apiKey = "" then Except.error "api_key is required for claude provider"
    else Except.ok (ClientModel.claude cfg.apiKey
      (if cfg.aiModel = "" then "claude-sonnet-4-6" else cfg.aiModel))
  | _ => Except.error
      ("unknown ai_provider \"" ++ cfg.aiProvider ++ "\" (valid: groq, ollama, claude)")

end Glyph

example : Glyph.Json.parse "\x7b\"a\": [1, true, \"x\"]\x7d" =
    some (Glyph.Json.obj [("a", Glyph.Json.arr
      [Glyph.Json.num "1", Glyph.Json.bool true, Glyph.Json.str "x"])]) := rfl

example : Glyph.Json.parse "\x7b\"a\": \x7d" = none := rfl

example : Glyph.Json.parse "null" = some Glyph.Json.null := rfl


namespace Glyph

theorem isCancelled_none (k : Nat) : isCancelled none k = false := rfl

theorem isCancelled_some_zero (k : Nat) : isCancelled (some 0) k = true := by
  cases k <;> rfl

theorem pushFrag_emitted (d : String) (r : StreamResult) :
    (pushFrag d r).emitted = d :: r.emitted := rfl

theorem pushFrag_bodyClosed (d : String) (r : StreamResult) :
    (pushFrag d r).bodyClosed = r.bodyClosed := rfl

/-- A context cancelled from the very first check stops `sseStream`
before it processes any line. -/
theorem sseLoop_cancelZero (extract : String → Option (String × Bool))
    (lines : List String) (k : Nat) :
    sseLoop (some 0) extract lines k = ⟨[], lines, true⟩ := by
  cases lines with
  | nil => rfl
  | cons line rest => simp [sseLoop, isCancelled_some_zero]

theorem claudeLoop_cancelZero (lines : List String) (ev : String) (k : Nat) :
    claudeLoop (some 0) lines ev k = ⟨[], lines, true⟩ := by
  cases lines with
  | nil => rfl
  | cons line rest => simp [claudeLoop, isCancelled_some_zero]

theorem ollamaLoop_cancelZero (lines : List String) (k : Nat) :
    ollamaLoop (some 0) lines k = ⟨[], lines, true⟩ := by
  cases lines with
  | nil => rfl
  | cons line rest => simp [ollamaLoop, isCancelled_some_zero]

/-- `sseStream` closes the response body on every exit path (the
deferred close). -/
theorem sseLoop_closes (cancelAt : Option Nat)
    (extract : String → Option (String × Bool)) :
    ∀ lines k, (sseLoop cancelAt extract lines k).bodyClosed = true := by
  intro lines
  induction lines with
  | nil => intro k; rfl
  | cons line rest ih =>
    intro k
    simp only [sseLoop]
    repeat' split
    all_goals simp [pushFrag_bodyClosed, ih]

theorem claudeLoop_closes (cancelAt : Option Nat) :
    ∀ lines ev k, (claudeLoop cancelAt lines ev k).bodyClosed = true := by
  intro lines
  induction lines with
  | nil => intro ev k; rfl
  | cons line rest ih =>
    intro ev k
    simp only [claudeLoop]
    repeat' split
    all_goals simp [pushFrag_bodyClosed, ih]

theorem ollamaLoop_closes (cancelAt : Option Nat) :
    ∀ lines k, (ollamaLoop cancelAt lines k).bodyClosed = true := by
  intro lines
  induction lines with
  | nil => intro k; rfl
  | cons line rest ih =>
    intro k
    simp only [ollamaLoop]
    repeat' split
    all_goals simp [pushFrag_bodyClosed, ih]

/-- Cancellation only truncates the `sseStream` output: whatever a run
with a cancelled context emits is an initial segment of what the
uncancelled run emits, so nothing new is sent once the signal is
observed. -/
theorem sseLoop_truncates (c : Nat) (extract : String → Option (String × Bool)) :
    ∀ lines k, ∃ t, (sseLoop none extract lines k).emitted =
      (sseLoop (some c) extract lines k).emitted ++ t := by
  intro lines
  induction lines with
  | nil => exact fun _ => ⟨[], rfl⟩
  | cons line rest ih =>
    intro k
    by_cases h0 : isCancelled (some c) k = true
    · refine ⟨(sseLoop none extract (line :: rest) k).emitted, ?_⟩
      simp [sseLoop, h0]
    · simp only [sseLoop, isCancelled_none, h0, Bool.false_eq_true, if_false]
      by_cases hd : goHasPre line "data:" = true
      · simp only [hd, if_true]
        by_cases hdone : goTrimSpace (trimPfx line "data:") = "[DONE]"
        · simp [hdone]
        · simp only [hdone, if_false]
          rcases hx : extract (goTrimSpace (trimPfx line "data:")) with _ | ⟨delta, done⟩
          · exact ih (k + 1)
          · cases done with
            | true => simp
            | false =>
              by_cases hδ : delta = ""
              · simp only [hδ, if_true, if_false]
                exact ih (k + 1)
              · simp only [hδ, if_false]
                by_cases h1 : isCancelled (some c) (k + 1) = true
                · refine ⟨delta :: (sseLoop none extract rest (k + 2)).emitted, ?_⟩
                  simp [h1, pushFrag_emitted]
                · obtain ⟨t, ht⟩ := ih (k + 2)
                  refine ⟨t, ?_⟩
                  simp [h1, pushFrag_emitted, ht]
      · simp only [hd, Bool.false_eq_true, if_false]
        exact ih (k + 1)

theorem claudeLoop_truncates (c : Nat) :
    ∀ lines ev k, ∃ t, (claudeLoop none lines ev k).emitted =
      (claudeLoop (some c) lines ev k).emitted ++ t := by
  intro lines
  induction lines with
  | nil => exact fun _ _ => ⟨[], rfl⟩
  | cons line rest ih =>
    intro ev k
    by_cases h0 : isCancelled (some c) k = true
    · refine ⟨(claudeLoop none (line :: rest) ev k).emitted, ?_⟩
      simp [claudeLoop, h0]
    · simp only [claudeLoop, isCancelled_none, h0, Bool.false_eq_true, if_false]
      by_cases he : goHasPre line "event:" = true
      · simp only [he, if_true]
        exact ih _ (k + 1)
      · simp only [he, Bool.false_eq_true, if_false]
        by_cases hd : goHasPre line "data:" = true
        · simp only [hd, if_true]
          by_cases hcb : ev = "content_block_delta"
          · simp only [hcb, if_true]
            rcases hx : decodeClaudeDelta (goTrimSpace (trimPfx line "data:")) with _ | d
            · exact ih _ (k + 1)
            · by_cases ht : (d.dtype = "text_delta" ∧ d.dtext ≠ "")
              · simp only [ht, if_true]
                by_cases h1 : isCancelled (some c) (k + 1) = true
                · refine ⟨d.dtext :: (claudeLoop none rest "content_block_delta" (k + 2)).emitted, ?_⟩
                  simp [h1, pushFrag_emitted, ht.2]
                · obtain ⟨t, hrec⟩ := ih "content_block_delta" (k + 2)
                  refine ⟨t, ?_⟩
                  simp [h1, pushFrag_emitted, hrec, ht.2]
              · simp only [ht, if_false]
                exact ih _ (k + 1)
          · simp only [hcb, if_false]
            by_cases hms : ev = "message_stop"
            · simp [hms]
            · simp only [hms, if_false]
              exact ih _ (k + 1)
        · simp only [hd, Bool.false_eq_true, if_false]
          exact ih _ (k + 1)

theorem ollamaLoop_truncates (c : Nat) :
    ∀ lines k, ∃ t, (ollamaLoop none lines k).emitted =
      (ollamaLoop (some c) lines k).emitted ++ t := by
  intro lines
  induction lines with
  | nil => exact fun _ => ⟨[], rfl⟩
  | cons line rest ih =>
    intro k
    by_cases h0 : isCancelled (some c) k = true
    · refine ⟨(ollamaLoop none (line :: rest) k).emitted, ?_⟩
      simp [ollamaLoop, h0]
    · simp only [ollamaLoop, isCancelled_none, h0, Bool.false_eq_true, if_false]
      rcases hx : decodeOllama line with _ | msg
      · exact ih (k + 1)
      · by_cases hc : msg.content = ""
        · simp only [hc, ne_eq, not_true_eq_false, if_false]
          by_cases hdn : msg.done = true
          · simp [hdn]
          · simp only [hdn, Bool.false_eq_true, if_false]
            exact ih (k + 1)
        · simp only [ne_eq, hc, not_false_eq_true, if_true]
          by_cases h1 : isCancelled (some c) (k + 1) = true
          · by_cases hdn : msg.done = true
            · refine ⟨[msg.content], ?_⟩
              simp [h1, hdn, pushFrag_emitted]
            · refine ⟨msg.content :: (ollamaLoop none rest (k + 2)).emitted, ?_⟩
              simp [h1, hdn, pushFrag_emitted]
          · by_cases hdn : msg.done = true
            · simp [h1, hdn]
            · obtain ⟨t, hrec⟩ := ih (k + 2)
              refine ⟨t, ?_⟩
              simp [h1, hdn, pushFrag_emitted, hrec]

/-- Every fragment `sseStream` sends is non-empty, whatever the
adapter's `extractDelta` returns: the send is guarded by the
`delta != \"\"` test. -/
theorem sseLoop_frag_ne (cancelAt : Option Nat)
    (extract : String → Option (String × Bool)) :
    ∀ lines k f, f ∈ (sseLoop cancelAt extract lines k).emitted → f ≠ "" := by
  intro lines
  induction lines with
  | nil => intro k f hf; simp [sseLoop] at hf
  | cons line rest ih =>
    intro k f hf
    by_cases h0 : isCancelled cancelAt k = true
    · simp [sseLoop, h0] at hf
    · simp only [sseLoop, h0, Bool.false_eq_true, if_false] at hf
      by_cases hd : goHasPre line "data:" = true
      · simp only [hd, if_true] at hf
        by_cases hdone : goTrimSpace (trimPfx line "data:") = "[DONE]"
        · simp [hdone] at hf
        · simp only [hdone, if_false] at hf
          rcases hx : extract (goTrimSpace (trimPfx line "data:")) with _ | ⟨delta, done⟩ <;>
            rw [hx] at hf
          · exact ih (k + 1) f hf
          · cases done with
            | true => simp at hf
            | false =>
              by_cases hδ : delta = ""
              · simp only [hδ, if_true, if_false] at hf
                exact ih (k + 1) f hf
              · simp only [hδ, if_false] at hf
                by_cases h1 : isCancelled cancelAt (k + 1) = true
                · simp [h1] at hf
                · simp only [h1, Bool.false_eq_true, if_false, pushFrag_emitted,
                    List.mem_cons] at hf
                  rcases hf with hf | hf
                  · exact hf ▸ hδ
                  · exact ih (k + 2) f hf
      · simp only [hd, Bool.false_eq_true, if_false] at hf
        exact ih (k + 1) f hf

/-- Every fragment the Anthropic goroutine sends is non-empty: the send
is guarded by `delta.Delta.Text != \"\"`. -/
theorem claudeLoop_frag_ne (cancelAt : Option Nat) :
    ∀ lines ev k f, f ∈ (claudeLoop cancelAt lines ev k).emitted → f ≠ "" := by
  intro lines
  induction lines with
  | nil => intro ev k f hf; simp [claudeLoop] at hf
  | cons line rest ih =>
    intro ev k f hf
    by_cases h0 : isCancelled cancelAt k = true
    · simp [claudeLoop, h0] at hf
    · simp only [claudeLoop, h0, Bool.false_eq_true, if_false] at hf
      by_cases he : goHasPre line "event:" = true
      · simp only [he, if_true] at hf
        exact ih _ (k + 1) f hf
      · simp only [he, Bool.false_eq_true, if_false] at hf
        by_cases hd : goHasPre line "data:" = true
        · simp only [hd, if_true] at hf
          by_cases hcb : ev = "content_block_delta"
          · simp only [hcb, if_true] at hf
            rcases hx : decodeClaudeDelta (goTrimSpace (trimPfx line "data:")) with _ | d <;>
              simp only [hx] at hf
            · exact ih _ (k + 1) f hf
            · by_cases ht : (d.dtype = "text_delta" ∧ d.dtext ≠ "")
              · rw [if_pos ht] at hf
                by_cases h1 : isCancelled cancelAt (k + 1) = true
                · rw [if_pos h1] at hf
                  simp at hf
                · rw [if_neg h1, pushFrag_emitted] at hf
                  rcases List.mem_cons.mp hf with hf | hf
                  · exact hf ▸ ht.2
                  · exact ih _ (k + 2) f hf
              · rw [if_neg ht] at hf
                exact ih _ (k + 1) f hf
          · simp only [hcb, if_false] at hf
            by_cases hms : ev = "message_stop"
            · simp [hms] at hf
            · simp only [hms, if_false] at hf
              exact ih _ (k + 1) f hf
        · simp only [hd, Bool.false_eq_true, if_false] at hf
          exact ih _ (k + 1) f hf

/-- Every fragment the Ollama goroutine sends is non-empty: the send is
guarded by `msg.Message.Content != \"\"`. -/
theorem ollamaLoop_frag_ne (cancelAt : Option Nat) :
    ∀ lines k f, f ∈ (ollamaLoop cancelAt lines k).emitted → f ≠ "" := by
  intro lines
  induction lines with
  | nil => intro k f hf; simp [ollamaLoop] at hf
  | cons line rest ih =>
    intro k f hf
    by_cases h0 : isCancelled cancelAt k = true
    · simp [ollamaLoop, h0] at hf
    · simp only [ollamaLoop, h0, Bool.false_eq_true, if_false] at hf
      rcases hx : decodeOllama line with _ | msg <;> simp only [hx] at hf
      · exact ih (k + 1) f hf
      · by_cases hc : msg.content = ""
        · simp only [ne_eq, hc, not_true_eq_false, if_false] at hf
          by_cases hdn : msg.done = true
          · simp [hdn] at hf
          · simp only [hdn, Bool.false_eq_true, if_false] at hf
            exact ih (k + 1) f hf
        · simp only [ne_eq, hc, not_false_eq_true, if_true] at hf
          by_cases h1 : isCancelled cancelAt (k + 1) = true
          · simp [h1] at hf
          · simp only [h1, Bool.false_eq_true, if_false] at hf
            by_cases hdn : msg.done = true
            · simp only [hdn, if_true, pushFrag_emitted, List.mem_cons] at hf
              rcases hf with hf | hf
              · exact hf ▸ hc
              · simp at hf
            · simp only [hdn, Bool.false_eq_true, if_false, pushFrag_emitted,
                List.mem_cons] at hf
              rcases hf with hf | hf
              · exact hf ▸ hc
              · exact ih (k + 2) f hf

/-- A data line whose payload fails the adapter's decode is skipped:
the run continues on the remaining lines as if the line were absent
(only the check counter advances). -/
theorem sseLoop_skip_bad (cancelAt : Option Nat)
    (extract : String → Option (String × Bool)) (k : Nat) (line : String)
    (rest : List String)
    (h0 : isCancelled cancelAt k = false)
    (hd : goHasPre line "data:" = true)
    (hdone : goTrimSpace (trimPfx line "data:") ≠ "[DONE]")
    (hx : extract (goTrimSpace (trimPfx line "data:")) = none) :
    sseLoop cancelAt extract (line :: rest) k =
      sseLoop cancelAt extract rest (k + 1) := by
  simp [sseLoop, h0, hd, hdone, hx]

/-- A terminal delta (`done = true`) ends `sseStream` at once: nothing is
emitted for that frame (its text, if any, is dropped) and no further
lines are read. -/
theorem sseLoop_terminal (cancelAt : Option Nat)
    (extract : String → Option (String × Bool)) (k : Nat) (line : String)
    (rest : List String) (δ : String)
    (h0 : isCancelled cancelAt k = false)
    (hd : goHasPre line "data:" = true)
    (hdone : goTrimSpace (trimPfx line "data:") ≠ "[DONE]")
    (hx : extract (goTrimSpace (trimPfx line "data:")) = some (δ, true)) :
    sseLoop cancelAt extract (line :: rest) k = ⟨[], rest, true⟩ := by
  simp [sseLoop, h0, hd, hdone, hx]

/-- A data line under `content_block_delta` whose payload fails to
decode is skipped and scanning continues with the same event state. -/
theorem claudeLoop_skip_bad (cancelAt : Option Nat) (k : Nat) (line : String)
    (rest : List String)
    (h0 : isCancelled cancelAt k = false)
    (he : goHasPre line "event:" = false)
    (hd : goHasPre line "data:" = true)
    (hx : decodeClaudeDelta (goTrimSpace (trimPfx line "data:")) = none) :
    claudeLoop cancelAt (line :: rest) "content_block_delta" k =
      claudeLoop cancelAt rest "content_block_delta" (k + 1) := by
  simp [claudeLoop, h0, he, hd, hx]

/-- A data line read while the current event type is `message_stop`
terminates the Anthropic goroutine whatever its payload: nothing is
emitted and the remaining lines are never read. -/
theorem claudeLoop_stop_on_data (cancelAt : Option Nat) (k : Nat)
    (line : String) (rest : List String)
    (h0 : isCancelled cancelAt k = false)
    (he : goHasPre line "event:" = false)
    (hd : goHasPre line "data:" = true) :
    claudeLoop cancelAt (line :: rest) "message_stop" k = ⟨[], rest, true⟩ := by
  simp only [claudeLoop, h0, Bool.false_eq_true, if_false, he, hd, if_true]
  rw [if_neg (by decide)]

/-- A line that fails to unmarshal is skipped by the Ollama goroutine. -/
theorem ollamaLoop_skip_bad (cancelAt : Option Nat) (k : Nat) (line : String)
    (rest : List String)
    (h0 : isCancelled cancelAt k = false)
    (hx : decodeOllama line = none) :
    ollamaLoop cancelAt (line :: rest) k = ollamaLoop cancelAt rest (k + 1) := by
  simp [ollamaLoop, h0, hx]

/-- A line with `done = true` ends the Ollama goroutine after emitting
its content exactly when that content is non-empty; the remaining lines
are never read. -/
theorem ollamaLoop_done (cancelAt : Option Nat) (k : Nat) (line : String)
    (rest : List String) (msg : OllamaMsg)
    (h0 : isCancelled cancelAt k = false)
    (h1 : isCancelled cancelAt (k + 1) = false)
    (hx : decodeOllama line = some msg)
    (hdn : msg.done = true) :
    ollamaLoop cancelAt (line :: rest) k =
      ⟨if msg.content = "" then [] else [msg.content], rest, true⟩ := by
  by_cases hc : msg.content = "" <;>
    simp [ollamaLoop, h0, h1, hx, hdn, hc, pushFrag]

/-- The ASCII lower-casing of a string is empty only for the empty
string. -/
theorem goToLower_eq_empty {s : String} (h : goToLower s = "") : s = "" := by
  cases s with
  | mk data =>
    cases data with
    | nil => rfl
    | cons c cs =>
      have h2 : ((c :: cs).map Char.toLower) = ([] : List Char) :=
        congrArg String.data h
      simp at h2

theorem string_append_assoc (a b c : String) :
    (a ++ b) ++ c = a ++ (b ++ c) := by
  cases a; cases b; cases c
  apply String.ext
  simp [String.data_append]

/-! ### Claim theorems -/

/-- C1 (counterexample): reading the `event: message_stop` line alone
does NOT end the Anthropic stream.  With no data line under the
`message_stop` event, scanning continues: a later `content_block_delta`
frame is still read and its fragment `"X"` is still emitted, refuting
"no data payload need apply, and after that event is seen no further
frames are read and no further fragments are emitted". -/
theorem C1_counterexample :
    (claudeLoop none
      ["event: message_stop",
       "event: content_block_delta",
       "data: \x7b\"delta\":\x7b\"type\":\"text_delta\",\"text\":\"X\"\x7d\x7d"]
      "" 0).emitted = ["X"] := rfl

/-- C1 (amended): a `data:` line read while the current event type is
`message_stop` ends the Anthropic stream — the payload content is
immaterial, but a data line must arrive; after it nothing further is
read or emitted.  The spec's scenario holds: `content_block_delta` with
`"Yo"`, an interleaved `ping` with no data line, then `message_stop`
with its data frame yield exactly `"Yo"`, and a frame after the
`message_stop` data line is never read. -/
theorem C1_message_stop_needs_data :
    (∀ cancelAt k line rest,
      isCancelled cancelAt k = false →
      goHasPre line "event:" = false →
      goHasPre line "data:" = true →
      claudeLoop cancelAt (line :: rest) "message_stop" k = ⟨[], rest, true⟩) ∧
    claudeLoop none
      ["event: content_block_delta",
       "data: \x7b\"delta\":\x7b\"type\":\"text_delta\",\"text\":\"Yo\"\x7d\x7d",
       "event: ping",
       "event: message_stop",
       "data: \x7b\"type\":\"message_stop\"\x7d",
       "data: \x7b\"delta\":\x7b\"type\":\"text_delta\",\"text\":\"Z\"\x7d\x7d"]
      "" 0 =
      ⟨["Yo"],
       ["data: \x7b\"delta\":\x7b\"type\":\"text_delta\",\"text\":\"Z\"\x7d\x7d"],
       true⟩ := by
  refine ⟨?_, rfl⟩
  intro cancelAt k line rest h0 he hd
  exact claudeLoop_stop_on_data cancelAt k line rest h0 he hd

theorem C1_message_stop_needs_data_witness :
    claudeLoop none ["data: \x7b\x7d", "q"] "message_stop" 0 = ⟨[], ["q"], true⟩ :=
  C1_message_stop_needs_data.1 none 0 "data: \x7b\x7d" ["q"] (by decide) (by decide)
    (by decide)

/-- C2: the OpenAI-compatible adapter on the three-line body yields
exactly `"Hel"`, `"lo"`, then closes; and with an extra line after the
`[DONE]` sentinel, that line is left unread (it would have emitted
`"XX"` had it been read). -/
theorem C2_groq_scenario :
    groqStream none ⟨200,
      "data: \x7b\"choices\":[\x7b\"delta\":\x7b\"content\":\"Hel\"\x7d\x7d]\x7d\ndata: \x7b\"choices\":[\x7b\"delta\":\x7b\"content\":\"lo\"\x7d\x7d]\x7d\ndata: [DONE]\n"⟩ =
      StreamOutcome.fragments ⟨["Hel", "lo"], [], true⟩ ∧
    sseLoop none extractGroq
      ["data: \x7b\"choices\":[\x7b\"delta\":\x7b\"content\":\"Hel\"\x7d\x7d]\x7d",
       "data: \x7b\"choices\":[\x7b\"delta\":\x7b\"content\":\"lo\"\x7d\x7d]\x7d",
       "data: [DONE]",
       "data: \x7b\"choices\":[\x7b\"delta\":\x7b\"content\":\"XX\"\x7d\x7d]\x7d"] 0 =
      ⟨["Hel", "lo"],
       ["data: \x7b\"choices\":[\x7b\"delta\":\x7b\"content\":\"XX\"\x7d\x7d]\x7d"],
       true⟩ :=
  ⟨rfl, rfl⟩

/-- C3 (counterexample): a fragment emitted into the buffered channel
before the producer observes cancellation is still delivered.  Here the
producer passes its first two checks, buffers `"Hel"`, and observes
cancellation only at check 2 — a schedule in which the consumer has
drained nothing — yet the fragment sequence is `["Hel"]`, not empty,
refuting "cancelling before any fragment is drained results in an
empty, closed fragment sequence". -/
theorem C3_counterexample :
    (sseLoop (some 2) extractGroq
      ["data: \x7b\"choices\":[\x7b\"delta\":\x7b\"content\":\"Hel\"\x7d\x7d]\x7d",
       "data: [DONE]"] 0).emitted = ["Hel"] ∧
    (sseLoop (some 2) extractGroq
      ["data: \x7b\"choices\":[\x7b\"delta\":\x7b\"content\":\"Hel\"\x7d\x7d]\x7d",
       "data: [DONE]"] 0).emitted ≠ [] := by
  exact ⟨rfl, by decide⟩

/-- C3 (amended): every adapter's producer checks the cancellation
signal before processing each line and before each emit.  A signal
cancelled from the very first check yields an empty, closed sequence
with the lines unread; in general a cancelled run's emitted sequence is
an initial segment of the uncancelled run's, so nothing further is
emitted once cancellation is observed; and the response body is closed
on every exit path.  (Fragments buffered before the producer observes
cancellation are still delivered.) -/
theorem C3_cancellation :
    (∀ extract lines k, sseLoop (some 0) extract lines k = ⟨[], lines, true⟩) ∧
    (∀ lines ev k, claudeLoop (some 0) lines ev k = ⟨[], lines, true⟩) ∧
    (∀ lines k, ollamaLoop (some 0) lines k = ⟨[], lines, true⟩) ∧
    (∀ (c : Nat) extract lines k, ∃ t,
      (sseLoop none extract lines k).emitted =
        (sseLoop (some c) extract lines k).emitted ++ t) ∧
    (∀ (c : Nat) lines ev k, ∃ t,
      (claudeLoop none lines ev k).emitted =
        (claudeLoop (some c) lines ev k).emitted ++ t) ∧
    (∀ (c : Nat) lines k, ∃ t,
      (ollamaLoop none lines k).emitted =
        (ollamaLoop (some c) lines k).emitted ++ t) ∧
    (∀ cancelAt extract lines k,
      (sseLoop cancelAt extract lines k).bodyClosed = true) ∧
    (∀ cancelAt lines ev k, (claudeLoop cancelAt lines ev k).bodyClosed = true) ∧
    (∀ cancelAt lines k, (ollamaLoop cancelAt lines k).bodyClosed = true) :=
  ⟨sseLoop_cancelZero, claudeLoop_cancelZero, ollamaLoop_cancelZero,
   fun c extract => sseLoop_truncates c extract,
   fun c => claudeLoop_truncates c,
   fun c => ollamaLoop_truncates c,
   fun cancelAt extract => sseLoop_closes cancelAt extract,
   fun cancelAt => claudeLoop_closes cancelAt,
   fun cancelAt => ollamaLoop_closes cancelAt⟩

/-- C4: for the local-inference adapter, a line with `done = true` ends
the stream after emitting its content exactly when that content is
non-empty, reading nothing further; on the spec's two-line input the
fragment source yields exactly `"Hi"` then closes, the empty final
content not being emitted. -/
theorem C4_ollama_done :
    (∀ cancelAt k line rest msg,
      isCancelled cancelAt k = false →
      isCancelled cancelAt (k + 1) = false →
      decodeOllama line = some msg →
      msg.done = true →
      ollamaLoop cancelAt (line :: rest) k =
        ⟨if msg.content = "" then [] else [msg.content], rest, true⟩) ∧
    ollamaLoop none
      ["\x7b\"message\":\x7b\"content\":\"Hi\"\x7d,\"done\":false\x7d",
       "\x7b\"message\":\x7b\"content\":\"\"\x7d,\"done\":true\x7d"] 0 =
      ⟨["Hi"], [], true⟩ := by
  refine ⟨?_, rfl⟩
  intro cancelAt k line rest msg h0 h1 hx hdn
  exact ollamaLoop_done cancelAt k line rest msg h0 h1 hx hdn

theorem C4_ollama_done_witness :
    ollamaLoop none
      ["\x7b\"message\":\x7b\"content\":\"tail\"\x7d,\"done\":true\x7d", "q"] 0 =
      ⟨if ("tail" : String) = "" then [] else ["tail"], ["q"], true⟩ :=
  C4_ollama_done.1 none 0
    "\x7b\"message\":\x7b\"content\":\"tail\"\x7d,\"done\":true\x7d" ["q"]
    ⟨"tail", true⟩ (by decide) (by decide) (by decide) (by decide)

/-- C5: for every adapter, an initial HTTP response with status at
least 400 makes `Stream` fail with the formatted error — which carries
the status code and the body text as substrings — and produce no
fragment source. -/
theorem C5_remote_error (cancelAt : Option Nat) (resp : HttpResponse)
    (h : resp.status ≥ 400) :
    groqStream cancelAt resp = StreamOutcome.startupError
        ("mind: server returned " ++ toString resp.status ++ ": " ++ resp.body) ∧
    claudeStream cancelAt resp = StreamOutcome.startupError
        ("mind: server returned " ++ toString resp.status ++ ": " ++ resp.body) ∧
    ollamaStream cancelAt resp = StreamOutcome.startupError
        ("mind: server returned " ++ toString resp.status ++ ": " ++ resp.body) ∧
    (∃ a b, ("mind: server returned " ++ toString resp.status ++ ": " ++ resp.body) =
      a ++ toString resp.status ++ b) ∧
    (∃ a, ("mind: server returned " ++ toString resp.status ++ ": " ++ resp.body) =
      a ++ resp.body) := by
  refine ⟨?_, ?_, ?_, ⟨"mind: server returned ", ": " ++ resp.body, ?_⟩,
    ⟨"mind: server returned " ++ toString resp.status ++ ": ", rfl⟩⟩
  · simp [groqStream, doPostModel, h]
  · simp [claudeStream, doPostModel, h]
  · simp [ollamaStream, doPostModel, h]
  · rw [string_append_assoc]

theorem C5_remote_error_witness :
    groqStream none ⟨500, "server error"⟩ = StreamOutcome.startupError
      ("mind: server returned " ++ toString (500 : Nat) ++ ": " ++ "server error") :=
  (C5_remote_error none ⟨500, "server error"⟩ (by decide)).1

/-- C6: a data line whose payload fails to decode is dropped without
effect in all three adapters — scanning continues with the same state —
and fragments from subsequent valid lines are still emitted, as the two
concrete runs show. -/
theorem C6_malformed_skipped :
    (∀ cancelAt (extract : String → Option (String × Bool)) k line rest,
      isCancelled cancelAt k = false →
      goHasPre line "data:" = true →
      goTrimSpace (trimPfx line "data:") ≠ "[DONE]" →
      extract (goTrimSpace (trimPfx line "data:")) = none →
      sseLoop cancelAt extract (line :: rest) k =
        sseLoop cancelAt extract rest (k + 1)) ∧
    (∀ cancelAt k line rest,
      isCancelled cancelAt k = false →
      goHasPre line "event:" = false →
      goHasPre line "data:" = true →
      decodeClaudeDelta (goTrimSpace (trimPfx line "data:")) = none →
      claudeLoop cancelAt (line :: rest) "content_block_delta" k =
        claudeLoop cancelAt rest "content_block_delta" (k + 1)) ∧
    (∀ cancelAt k line rest,
      isCancelled cancelAt k = false →
      decodeOllama line = none →
      ollamaLoop cancelAt (line :: rest) k = ollamaLoop cancelAt rest (k + 1)) ∧
    sseLoop none extractGroq
      ["data: \x7bnot json",
       "data: \x7b\"choices\":[\x7b\"delta\":\x7b\"content\":\"lo\"\x7d\x7d]\x7d",
       "data: [DONE]"] 0 = ⟨["lo"], [], true⟩ ∧
    ollamaLoop none
      ["not json",
       "\x7b\"message\":\x7b\"content\":\"Hi\"\x7d,\"done\":true\x7d"] 0 =
      ⟨["Hi"], [], true⟩ := by
  refine ⟨?_, ?_, ?_, rfl, rfl⟩
  · intro cancelAt extract k line rest h0 hd hdone hx
    exact sseLoop_skip_bad cancelAt extract k line rest h0 hd hdone hx
  · intro cancelAt k line rest h0 he hd hx
    exact claudeLoop_skip_bad cancelAt k line rest h0 he hd hx
  · intro cancelAt k line rest h0 hx
    exact ollamaLoop_skip_bad cancelAt k line rest h0 hx

theorem C6_malformed_skipped_witness :
    sseLoop none extractGroq ["data: \x7bnot json", "data: [DONE]"] 0 =
      sseLoop none extractGroq ["data: [DONE]"] 1 :=
  C6_malformed_skipped.1 none extractGroq 0 "data: \x7bnot json" ["data: [DONE]"]
    (by decide) (by decide) (by decide) (by decide)

/-- C7: a non-empty provider name whose lower-casing is none of the
three recognized providers makes the factory return the configuration
error naming the invalid value and listing the valid options — and no
client. -/
theorem C7_factory_unknown (cfg : Config)
    (h0 : cfg.aiProvider ≠ "")
    (h1 : goToLower cfg.aiProvider ≠ "ollama")
    (h2 : goToLower cfg.aiProvider ≠ "groq")
    (h3 : goToLower cfg.aiProvider ≠ "claude") :
    NewClientFromConfig cfg = Except.error
      ("unknown ai_provider \"" ++ cfg.aiProvider ++ "\" (valid: groq, ollama, claude)") := by
  unfold NewClientFromConfig
  split
  · next heq => exact absurd heq h1
  · next heq => exact absurd heq h2
  · next heq => exact absurd (goToLower_eq_empty heq) h0
  · next heq => exact absurd heq h3
  · rfl

theorem C7_factory_unknown_witness :
    NewClientFromConfig ⟨"grok", "m", "key", ""⟩ = Except.error
      ("unknown ai_provider \"" ++ "grok" ++ "\" (valid: groq, ollama, claude)") :=
  C7_factory_unknown ⟨"grok", "m", "key", ""⟩ (by decide) (by decide) (by decide)
    (by decide)

/-- C8: in all three adapters, every fragment placed on the fragment
source is a non-empty string — the sends are guarded by non-emptiness
tests, so frames with empty or missing text are discarded without
emitting. -/
theorem C8_fragments_nonempty :
    (∀ cancelAt (extract : String → Option (String × Bool)) lines k f,
      f ∈ (sseLoop cancelAt extract lines k).emitted → f ≠ "") ∧
    (∀ cancelAt lines ev k f,
      f ∈ (claudeLoop cancelAt lines ev k).emitted → f ≠ "") ∧
    (∀ cancelAt lines k f,
      f ∈ (ollamaLoop cancelAt lines k).emitted → f ≠ "") :=
  ⟨fun cancelAt extract => sseLoop_frag_ne cancelAt extract,
   fun cancelAt => claudeLoop_frag_ne cancelAt,
   fun cancelAt => ollamaLoop_frag_ne cancelAt⟩

theorem C8_fragments_nonempty_witness : ("Hel" : String) ≠ "" :=
  C8_fragments_nonempty.1 none extractGroq
    ["data: \x7b\"choices\":[\x7b\"delta\":\x7b\"content\":\"Hel\"\x7d\x7d]\x7d"]
    0 "Hel" (by decide)

/-- C9: with an empty configured host, the local-inference adapter
targets exactly `http://localhost:11434/api/chat`. -/
theorem C9_ollama_default_url :
    ollamaURL "" = "http://localhost:11434/api/chat" := rfl

/-- C10: for the OpenAI-compatible adapter, a decoded frame whose first
choice has `finish_reason = "stop"` maps to a terminal delta with its
`delta.content` discarded, and such a frame ends the stream emitting
nothing; the concrete runs contrast this with the local-inference path,
which does emit the trailing content of its terminal line. -/
theorem C10_groq_stop_discards :
    (∀ payload c cs,
      decodeGroq payload = some (c :: cs) →
      c.finishReason = some "stop" →
      extractGroq payload = some ("", true)) ∧
    (∀ cancelAt (extract : String → Option (String × Bool)) k line rest δ,
      isCancelled cancelAt k = false →
      goHasPre line "data:" = true →
      goTrimSpace (trimPfx line "data:") ≠ "[DONE]" →
      extract (goTrimSpace (trimPfx line "data:")) = some (δ, true) →
      sseLoop cancelAt extract (line :: rest) k = ⟨[], rest, true⟩) ∧
    sseLoop none extractGroq
      ["data: \x7b\"choices\":[\x7b\"delta\":\x7b\"content\":\"tail\"\x7d,\"finish_reason\":\"stop\"\x7d]\x7d",
       "data: \x7b\"choices\":[\x7b\"delta\":\x7b\"content\":\"after\"\x7d\x7d]\x7d"] 0 =
      ⟨[], ["data: \x7b\"choices\":[\x7b\"delta\":\x7b\"content\":\"after\"\x7d\x7d]\x7d"], true⟩ ∧
    ollamaLoop none
      ["\x7b\"message\":\x7b\"content\":\"tail\"\x7d,\"done\":true\x7d",
       "\x7b\"message\":\x7b\"content\":\"after\"\x7d,\"done\":false\x7d"] 0 =
      ⟨["tail"], ["\x7b\"message\":\x7b\"content\":\"after\"\x7d,\"done\":false\x7d"], true⟩ := by
  refine ⟨?_, ?_, rfl, rfl⟩
  · intro payload c cs hdec hfr
    simp [extractGroq, hdec, hfr]
  · intro cancelAt extract k line rest δ h0 hd hdone hx
    exact sseLoop_terminal cancelAt extract k line rest δ h0 hd hdone hx

theorem C10_groq_stop_discards_witness :
    extractGroq
      "\x7b\"choices\":[\x7b\"delta\":\x7b\"content\":\"tail\"\x7d,\"finish_reason\":\"stop\"\x7d]\x7d" =
      some ("", true) :=
  C10_groq_stop_discards.1
    "\x7b\"choices\":[\x7b\"delta\":\x7b\"content\":\"tail\"\x7d,\"finish_reason\":\"stop\"\x7d]\x7d"
    ⟨"tail", some "stop"⟩ [] (by decide) rfl

end Glyph
